import Mathlib

/-!
Shallow embedding of the blog-agent pipeline core (folder parsing and
selection, image collection, places/vision normalization, the paragraph
composer and sanitizer, and the HTML rule validator), together with
theorems settling the specification claims about it.

Python strings are modelled as `List Char`; Python `int` as `Int`/`Nat`;
fallible Python code returns `Except PyErr` / `Option`.
-/

deriving instance DecidableEq for Except

namespace BlogAgent

/-- Model of a Python `str`: a list of unicode code points. -/
abbrev PyStr := List Char

/-- Model of a Python exception: just a message. -/
abbrev PyErr := PyStr

/-- Whitespace characters stripped by Python `str.strip()` (ASCII part). -/
def pySpace (c : Char) : Bool :=
  c = ' ' || c = '\t' || c = '\n' || c = '\r' ||
    c = Char.ofNat 11 || c = Char.ofNat 12

/-- Model of Python `str.strip()`. -/
def pyStrip (s : PyStr) : PyStr :=
  ((s.dropWhile pySpace).reverse.dropWhile pySpace).reverse

/-- Model of Python `str.lower()` (ASCII range, which covers every
character the validator and sanitizer compare against). -/
def pyLower (s : PyStr) : PyStr :=
  s.map Char.toLower

/-- Substring test (`pat in s` for Python strings). -/
def hasSubstring (p : PyStr) : PyStr → Bool
  | [] => p.isEmpty
  | c :: rest => p.isPrefixOf (c :: rest) || hasSubstring p rest

/-- Scanner for Python `str.replace(pat, rep)`: scan left to right,
replace each non-overlapping occurrence, never rescanning the
replacement text.  `skip` counts pattern characters already consumed by
the occurrence most recently replaced.  The pattern is `pc :: ps`. -/
def pyReplaceGo (pc : Char) (ps rep : PyStr) : PyStr → Nat → PyStr
  | [], _ => []
  | _ :: rest, skip + 1 => pyReplaceGo pc ps rep rest skip
  | c :: rest, 0 =>
    if (pc :: ps).isPrefixOf (c :: rest) then
      rep ++ pyReplaceGo pc ps rep rest ps.length
    else
      c :: pyReplaceGo pc ps rep rest 0

/-- Python `str.replace` for a non-empty pattern given as a plain string
(empty pattern never occurs in this code base). -/
def pyReplace (s pat rep : PyStr) : PyStr :=
  match pat with
  | [] => s
  | pc :: ps => pyReplaceGo pc ps rep s 0

/-- The emoji code-point ranges of `EMOJI_PATTERN` (rules.py / pipeline.py). -/
def isEmojiChar (c : Char) : Bool :=
  (0x1F300 ≤ c.toNat && c.toNat ≤ 0x1F5FF) ||
  (0x1F600 ≤ c.toNat && c.toNat ≤ 0x1F64F) ||
  (0x1F680 ≤ c.toNat && c.toNat ≤ 0x1F6FF) ||
  (0x1F900 ≤ c.toNat && c.toNat ≤ 0x1F9FF) ||
  (0x1FA70 ≤ c.toNat && c.toNat ≤ 0x1FAFF)

/-- `EMOJI_PATTERN.sub("", s)`: delete every emoji character. -/
def stripEmoji (s : PyStr) : PyStr :=
  s.filter (fun c => !isEmojiChar c)

/-- `EMOJI_PATTERN.search(s)`: does any emoji character occur? -/
def hasEmoji (s : PyStr) : Bool :=
  s.any isEmojiChar

end BlogAgent

namespace BlogAgent

/-! ### rules.py -/

/-- `BANNED_LITERALS` from rules.py. -/
def bannedLiterals : List PyStr :=
  [("**").toList, ("<hr").toList, (".gif").toList, ("image/gif").toList]

/-- `REVIEW_REFERENCE_KEYWORDS` from rules.py. -/
def reviewReferenceKeywords : List PyStr :=
  [("최근 리뷰").toList, ("리뷰에서").toList, ("review").toList]

/-- `RulesReport` dataclass from rules.py. -/
structure RulesReport where
  passed : Bool
  violations : List PyStr
deriving DecidableEq, Repr

/-- `validate_html_document` from rules.py (lines 30-54), translated
check for check in source order. -/
def validateHtmlDocument (htmlText : PyStr) (recentReviewCount : Int) : RulesReport :=
  let lowered := pyLower htmlText
  let structural :=
    (if !(hasSubstring (("<html").toList) lowered) then [("missing <html> tag").toList] else []) ++
    (if !(hasSubstring (("<head").toList) lowered) then [("missing <head> tag").toList] else []) ++
    (if !(hasSubstring (("<body").toList) lowered) then [("missing <body> tag").toList] else [])
  let banned :=
    bannedLiterals.filterMap fun lit =>
      if hasSubstring lit lowered then some (("contains banned token: ").toList ++ lit) else none
  let emoji := if hasEmoji htmlText then [("contains emoji").toList] else []
  let review :=
    if recentReviewCount = 0 then
      match reviewReferenceKeywords.find? (fun kw => hasSubstring (pyLower kw) lowered) with
      | some kw => [("mentions reviews without recent review data: ").toList ++ kw]
      | none => []
    else []
  let violations := structural ++ banned ++ emoji ++ review
  { passed := violations.isEmpty, violations := violations }

/-! ### scan_folders.py -/

/-- `ParsedFolderName` dataclass. -/
structure ParsedFolderName where
  visit_date : PyStr
  restaurant_name : PyStr
deriving DecidableEq, Repr

/-- `SourceFolderEntry` dataclass. -/
structure SourceFolderEntry where
  folder_id : PyStr
  folder_name : PyStr
deriving DecidableEq, Repr

/-- `ImageEntry` dataclass. -/
structure ImageEntry where
  file_id : PyStr
  name : PyStr
  mime_type : PyStr
deriving DecidableEq, Repr

/-- ASCII decimal digit, as matched by `\d` in the folder-name pattern. -/
def isPyDigit (c : Char) : Bool :=
  '0' ≤ c && c ≤ '9'

/-- Numeric value of a string of decimal digits. -/
def digitsToNat (ds : PyStr) : Nat :=
  ds.foldl (fun acc c => acc * 10 + (c.toNat - ('0').toNat)) 0

/-- Gregorian leap-year rule used by `datetime`. -/
def isLeapYear (y : Nat) : Bool :=
  y % 4 = 0 && (y % 100 ≠ 0 || y % 400 = 0)

/-- Number of days of month `m` in year `y` (`datetime` calendar). -/
def daysInMonth (y m : Nat) : Nat :=
  if m = 2 then (if isLeapYear y then 29 else 28)
  else if m = 4 || m = 6 || m = 9 || m = 11 then 30
  else 31

/-- `datetime.strptime(ds, "%Y%m%d")` succeeding on an 8-digit string:
the first four digits are the year (`datetime` rejects year 0), the next
two a month 01-12, the last two a day that exists in that month. -/
def strptimeValidYMD8 (ds : PyStr) : Bool :=
  let y := digitsToNat (ds.take 4)
  let m := digitsToNat ((ds.drop 4).take 2)
  let d := digitsToNat (ds.drop 6)
  1 ≤ y && 1 ≤ m && m ≤ 12 && 1 ≤ d && d ≤ daysInMonth y m

/-- Python `re` semantics of the tail `(.+)$` of `FOLDER_NAME_PATTERN`:
`.` never matches a newline and `$` matches at the end of the string or
just before one final newline, so the group is the rest of the name with
at most one trailing newline removed, provided that core is non-empty
and newline-free. -/
def matchDotPlusEnd (rest : PyStr) : Option PyStr :=
  let core := if rest.getLast? = some '\n' then rest.dropLast else rest
  if !core.isEmpty && !(core.contains '\n') then some core else none

/-- `FOLDER_NAME_PATTERN.match(name)` for `^(\d{8})_(.+)$`: returns the
two captured groups. -/
def matchFolderName (name : PyStr) : Option (PyStr × PyStr) :=
  if (name.take 8).length = 8 && (name.take 8).all isPyDigit
      && name.get? 8 = some '_' then
    match matchDotPlusEnd (name.drop 9) with
    | some core => some (name.take 8, core)
    | none => none
  else none

/-- `parse_source_folder_name` (scan_folders.py lines 68-80); a raised
`ValueError` is modelled as `Except.error`. -/
def parseSourceFolderName (folderName : PyStr) : Except PyErr ParsedFolderName :=
  match matchFolderName folderName with
  | none => .error (("Invalid source folder format: ").toList ++ folderName)
  | some (visitDate, group) =>
    let restaurantName := pyStrip group
    if restaurantName.isEmpty then
      .error (("Restaurant name is empty: ").toList ++ folderName)
    else if strptimeValidYMD8 visitDate then
      .ok { visit_date := visitDate, restaurant_name := restaurantName }
    else
      .error (("strptime: invalid date in ").toList ++ folderName)

/-- The `for item in source_folders` loop of
`select_latest_source_folders`: pair every entry with its parsed visit
date, propagating the first parse failure. -/
def enrichWithDates : List SourceFolderEntry → Except PyErr (List (PyStr × SourceFolderEntry))
  | [] => .ok []
  | item :: rest => do
    let parsed ← parseSourceFolderName item.folder_name
    let tail ← enrichWithDates rest
    pure ((parsed.visit_date, item) :: tail)

/-- `select_latest_source_folders` (scan_folders.py lines 112-123):
parse every entry (a parse failure propagates), stable-sort by visit
date descending, take the first `latest`. -/
def selectLatestSourceFolders (sourceFolders : List SourceFolderEntry) (latest : Int) :
    Except PyErr (List SourceFolderEntry) :=
  if latest < 1 then .error (("latest must be >= 1").toList)
  else
    match enrichWithDates sourceFolders with
    | .error e => .error e
    | .ok enriched =>
      let sorted := enriched.mergeSort (fun a b => decide (b.1 ≤ a.1))
      .ok ((sorted.take latest.toNat).map (fun pair => pair.2))

/-- `SUPPORTED_IMAGE_EXTENSIONS`. -/
def supportedImageExtensions : List PyStr :=
  [(".jpg").toList, (".jpeg").toList, (".png").toList, (".webp").toList]

/-- `is_supported_image_filename` (scan_folders.py lines 126-128). -/
def isSupportedImageFilename (filename : PyStr) : Bool :=
  supportedImageExtensions.any (fun ext => ext.isSuffixOf (pyLower filename))

/-- `DRIVE_FOLDER_MIME_TYPE`. -/
def driveFolderMimeType : PyStr :=
  ("application/vnd.google-apps.folder").toList

/-- A child dict returned by `list_children`; `get` with a `""` default
is modelled by `Option`. -/
structure DriveEntry where
  id : Option PyStr
  name : Option PyStr
  mimeType : Option PyStr
deriving DecidableEq, Repr

/-- The storage collaborator: `list_children` only. -/
def DriveClient := PyStr → List DriveEntry

/-- One `for entry in drive_client.list_children(...)` iteration of
`collect_images_recursive`: clean the three dict fields, skip blank
entries, push folders, collect supported images, ignore the rest. -/
def collectChildEntry (acc : List PyStr × List ImageEntry) (entry : DriveEntry) :
    List PyStr × List ImageEntry :=
  let entryId := pyStrip (entry.id.getD [])
  let entryName := pyStrip (entry.name.getD [])
  let mimeType := pyStrip (entry.mimeType.getD [])
  if entryId.isEmpty || entryName.isEmpty || mimeType.isEmpty then acc
  else if mimeType = driveFolderMimeType then (acc.1 ++ [entryId], acc.2)
  else if isSupportedImageFilename entryName then
    (acc.1, acc.2 ++ [{ file_id := entryId, name := entryName, mime_type := mimeType }])
  else acc

/-- The whole `for entry in ...` loop body of
`collect_images_recursive`: cleaned folder ids to push, in order, and
cleaned supported images to collect, in order. -/
def collectChildrenStep (entries : List DriveEntry) : List PyStr × List ImageEntry :=
  entries.foldl collectChildEntry ([], [])

/-- What ends up in the collected-image list: non-blank cleaned id,
name and mime type, a non-folder mime type, and a supported image
extension. -/
def cleanSupportedImage (e : ImageEntry) : Prop :=
  e.file_id ≠ [] ∧ e.name ≠ [] ∧ e.mime_type ≠ [] ∧
    e.mime_type ≠ driveFolderMimeType ∧ isSupportedImageFilename e.name = true

/-- The `while stack` loop of `collect_images_recursive`, fuelled:
`stack.pop()` removes the last element and the current folder's child
folders are appended at the end.  `none` models running out of fuel,
i.e. the Python loop still running after `fuel` iterations. -/
def collectImagesGo (client : DriveClient) :
    Nat → List PyStr → List ImageEntry → Option (List ImageEntry)
  | fuel, stack, collected =>
    match stack.getLast? with
    | none => some collected
    | some current =>
      match fuel with
      | 0 => none
      | fuel + 1 =>
        let step := collectChildrenStep (client current)
        collectImagesGo client fuel (stack.dropLast ++ step.1) (collected ++ step.2)

/-- Comparison used by `collected.sort(key=lambda item: item.name.lower())`. -/
def imageNameLe (a b : ImageEntry) : Bool :=
  decide (pyLower a.name ≤ pyLower b.name)

/-- `collect_images_recursive` (scan_folders.py lines 131-154), fuelled. -/
def collectImagesRecursive (client : DriveClient) (folderId : PyStr) (fuel : Nat) :
    Option (List ImageEntry) :=
  (collectImagesGo client fuel [folderId] []).map
    (fun collected => collected.mergeSort imageNameLe)

/-! ### places_client.py -/

/-- `RestaurantReview` dataclass. -/
structure RestaurantReview where
  time : Int
  rating : Int
  text : PyStr
  relative_time : PyStr := []
deriving DecidableEq, Repr

/-- `RestaurantInfo` dataclass with its field defaults. -/
structure RestaurantInfo where
  found : Bool
  place_id : PyStr := []
  name : PyStr := []
  address : PyStr := []
  opening_hours : List PyStr := []
  rating : Option Int := none
  user_ratings_total : Option Int := none
  maps_url : PyStr := []
  website : PyStr := []
  recent_reviews : List RestaurantReview := []
  recent_reviews_cutoff_days : Int := 60
deriving DecidableEq, Repr

/-- A review dict handed to `_filter_recent_reviews`.  `time` is the
outcome of `_safe_int(review.get("time"))`: `some` for a parseable
timestamp, `none` for a missing or unparseable one.  The other fields
model `review.get(key, default)`. -/
structure RawReview where
  time : Option Int
  rating : Option Int := none
  text : Option PyStr := none
  relative_time : Option PyStr := none
deriving DecidableEq, Repr

/-- The `for review in reviews` loop of `_filter_recent_reviews`:
`continue` on an unparseable or too-old timestamp, append otherwise. -/
def filterRecentLoop (cutoffTs : Int) : List RawReview → List RestaurantReview
  | [] => []
  | r :: rest =>
    match r.time with
    | none => filterRecentLoop cutoffTs rest
    | some t =>
      if t < cutoffTs then filterRecentLoop cutoffTs rest
      else { time := t, rating := r.rating.getD 0, text := r.text.getD [],
             relative_time := r.relative_time.getD [] } :: filterRecentLoop cutoffTs rest

/-- `PlacesClient._filter_recent_reviews` (places_client.py lines
119-143); `nowTs` is `int(self._now_fn().timestamp())`. -/
def filterRecentReviews (reviews : Option (List RawReview)) (cutoffDays : Int) (nowTs : Int) :
    List RestaurantReview :=
  match reviews with
  | none => []
  | some rs =>
    if rs.isEmpty then []
    else if cutoffDays < 1 then []
    else filterRecentLoop (nowTs - cutoffDays * 24 * 60 * 60) rs

/-- Python `a or b` for an optional string `a`: `a` when present and
non-empty (truthy), else `b`. -/
def pyOrStr (a : Option PyStr) (b : PyStr) : PyStr :=
  match a with
  | some s => if s.isEmpty then b else s
  | none => b

/-- The dict returned by a provider's `search_place` (absent / falsy
modelled by the surrounding `Option`). -/
structure SearchFound where
  place_id : Option PyStr := none
  placeId : Option PyStr := none
deriving DecidableEq, Repr

/-- The details dict returned by `get_place_details`; numeric fields
carry the `_safe_float` / `_safe_int` outcome. -/
structure PlaceDetails where
  name : Option PyStr := none
  address : Option PyStr := none
  opening_hours : Option (List PyStr) := none
  rating : Option Int := none
  user_ratings_total : Option Int := none
  maps_url : Option PyStr := none
  website : Option PyStr := none
  reviews : Option (List RawReview) := none
deriving DecidableEq, Repr

/-- The `details = ... or {}` fallback dict. -/
def emptyDetails : PlaceDetails := {}

/-- A places provider, modelled by the outcomes of its two methods;
`Except.error` models the call raising. -/
structure PlacesProvider where
  searchPlace : PyStr → Except PyErr (Option SearchFound)
  getPlaceDetails : PyStr → Except PyErr (Option PlaceDetails)

/-- `RestaurantInfo(found=False, recent_reviews_cutoff_days=cutoff_days)`. -/
def notFoundInfo (cutoffDays : Int) : RestaurantInfo :=
  { found := false, recent_reviews_cutoff_days := cutoffDays }

/-- `PlacesClient.fetch_restaurant_info` (places_client.py lines
81-117).  The result type is `Except` so that a propagated provider
exception would be visible as `.error`; every `try/except` of the
source is translated by matching on the provider call's outcome. -/
def fetchRestaurantInfo (provider : Option PlacesProvider) (restaurantName : PyStr)
    (cutoffDays : Int) (nowTs : Int) : Except PyErr RestaurantInfo :=
  match provider with
  | none => .ok (notFoundInfo cutoffDays)
  | some p =>
    match p.searchPlace restaurantName with
    | .error _ => .ok (notFoundInfo cutoffDays)
    | .ok none => .ok (notFoundInfo cutoffDays)
    | .ok (some found) =>
      let placeId := pyStrip (pyOrStr found.place_id (pyOrStr found.placeId []))
      if placeId.isEmpty then .ok (notFoundInfo cutoffDays)
      else
        match p.getPlaceDetails placeId with
        | .error _ => .ok (notFoundInfo cutoffDays)
        | .ok odetails =>
          let details := odetails.getD emptyDetails
          .ok { found := true
                place_id := placeId
                name := pyOrStr details.name restaurantName
                address := details.address.getD []
                opening_hours := details.opening_hours.getD []
                rating := details.rating
                user_ratings_total := details.user_ratings_total
                maps_url := details.maps_url.getD []
                website := details.website.getD []
                recent_reviews := filterRecentReviews details.reviews cutoffDays nowTs
                recent_reviews_cutoff_days := cutoffDays }

/-! ### vision_client.py -/

/-- A JSON-ish dict value as `_normalize_analysis._as_list` and
`VisionClient.analyze` distinguish them: absent key, string, or list
(list items appear through `str(item)`, hence as strings). -/
inductive PyVal where
  | missing
  | str (s : PyStr)
  | list (items : List PyStr)
deriving DecidableEq, Repr

/-- A provider payload: the dict returned by `analyze_image` (and the
dict fed to `_normalize_analysis`). -/
structure VisionPayload where
  scene_type : Option PyStr := none
  observations : PyVal := .missing
  food_guess : PyVal := .missing
  ambience_hints : PyVal := .missing
  bloggable_details : PyVal := .missing
  warnings : PyVal := .missing
deriving DecidableEq, Repr

/-- `VisionAnalysis` dataclass with its defaults. -/
structure VisionAnalysis where
  scene_type : PyStr := ("other").toList
  observations : List PyStr := []
  food_guess : List PyStr := []
  ambience_hints : List PyStr := []
  bloggable_details : List PyStr := []
  warnings : List PyStr := []
deriving DecidableEq, Repr

/-- `VisionImageResult` dataclass. -/
structure VisionImageResult where
  file_id : PyStr
  name : PyStr
  analysis : Option VisionAnalysis := none
  raw : Option PyStr := none
deriving DecidableEq, Repr

/-- `list(raw_payload.get(key) or [])` in `VisionClient.analyze`:
a missing key or falsy value gives `[]`, a list stays as is, and
`list` over a non-empty string is its characters. -/
def pyValToListRaw : PyVal → List PyStr
  | .missing => []
  | .str s => if s.isEmpty then [] else s.map (fun c => [c])
  | .list items => items

/-- `VisionClient.analyze` (vision_client.py lines 68-103).  The
provider argument is the outcome of `analyze_image` on these inputs:
`none` for no configured provider, `some (.error exc)` for a raising
call, `some (.ok payload)` for a returned payload dict. -/
def visionAnalyze (provider : Option (Except PyErr VisionPayload))
    (fileId imageName : PyStr) : VisionImageResult :=
  match provider with
  | none =>
    { file_id := fileId, name := imageName,
      raw := some (("vision provider not configured").toList) }
  | some (.error exc) =>
    { file_id := fileId, name := imageName,
      raw := some (("vision analyze failed: ").toList ++ exc) }
  | some (.ok rawPayload) =>
    { file_id := fileId, name := imageName,
      analysis := some
        { scene_type := rawPayload.scene_type.getD (("other").toList)
          observations := pyValToListRaw rawPayload.observations
          food_guess := pyValToListRaw rawPayload.food_guess
          ambience_hints := pyValToListRaw rawPayload.ambience_hints
          bloggable_details := pyValToListRaw rawPayload.bloggable_details
          warnings := pyValToListRaw rawPayload.warnings } }

/-- `_as_list` inside `_normalize_analysis`: strip items, drop blanks;
promote a non-blank string to a singleton; anything else (or a missing
key, whose default is `[]`) gives `[]`. -/
def asListField (v : PyVal) : List PyStr :=
  match v with
  | .missing => []
  | .list items => (items.map pyStrip).filter (fun s => !s.isEmpty)
  | .str s => if (pyStrip s).isEmpty then [] else [pyStrip s]

/-- The fixed scene-type vocabulary of `_normalize_analysis`. -/
def allowedSceneTypes : List PyStr :=
  [("food").toList, ("menu").toList, ("interior").toList,
   ("exterior").toList, ("receipt").toList, ("other").toList]

/-- The scene_type normalization of `_normalize_analysis`:
`str(payload.get("scene_type", "other")).strip().lower() or "other"`,
then membership in the fixed set with fallback `"other"`. -/
def normalizeSceneType (v : Option PyStr) : PyStr :=
  let s := pyLower (pyStrip (v.getD (("other").toList)))
  let s := if s.isEmpty then ("other").toList else s
  if allowedSceneTypes.contains s then s else ("other").toList

/-- `_normalize_analysis` (vision_client.py lines 233-258). -/
def normalizeAnalysis (payload : VisionPayload) (fallbackWarning : PyStr) : VisionPayload :=
  let warnings := asListField payload.warnings
  let warnings := if warnings.isEmpty then [fallbackWarning] else warnings
  { scene_type := some (normalizeSceneType payload.scene_type)
    observations := .list (asListField payload.observations)
    food_guess := .list (asListField payload.food_guess)
    ambience_hints := .list (asListField payload.ambience_hints)
    bloggable_details := .list (asListField payload.bloggable_details)
    warnings := .list warnings }

/-! ### pipeline.py — composer and sanitizer -/

/-- `_sanitize_text` (pipeline.py lines 1064-1071), replacement for
replacement in source order, then the emoji deletion and the final
strip. -/
def sanitizeText (value : PyStr) : PyStr :=
  let s := pyReplace value (("**").toList) []
  let s := pyReplace s (("\"").toList) []
  let s := pyReplace s (("<hr").toList) (("hr").toList)
  let s := pyReplace s ((".gif").toList) ((".img").toList)
  let s := pyReplace s (("image/gif").toList) (("image").toList)
  pyStrip (stripEmoji s)

/-- One piece of a template string: literal text or a named
placeholder. -/
inductive TemplateSeg where
  | lit (s : PyStr)
  | ph (name : PyStr)
deriving DecidableEq, Repr

/-- A template string as `str.format` sees it: its segments, plus the
original text (`raw`), which is what `_format_template` returns when
`format` raises `KeyError`. -/
structure Template where
  segs : List TemplateSeg
  raw : PyStr
deriving DecidableEq, Repr

/-- `_format_template` (pipeline.py lines 1078-1082): substitute every
placeholder when all of them are among the keyword arguments, and
return the template unexpanded on `KeyError`. -/
def formatTemplate (tmpl : Template) (args : List (PyStr × PyStr)) : PyStr :=
  if tmpl.segs.all (fun seg =>
      match seg with
      | .lit _ => true
      | .ph n => (args.lookup n).isSome) then
    (tmpl.segs.map (fun seg =>
      match seg with
      | .lit s => s
      | .ph n => (args.lookup n).getD [])).flatten
  else tmpl.raw

/-- `Manifest` dataclass (scan_folders.py). -/
structure Manifest where
  source_folder_id : PyStr
  source_folder_name : PyStr
  visit_date : PyStr
  restaurant_name : PyStr
  images : List ImageEntry
deriving DecidableEq, Repr

/-- `PromptSet` (prompts.py); the two `*_prefix` fields are named `Pfx`
here. -/
structure PromptSet where
  title_template : Template
  intro_template : Template
  scene_summary_template : Template
  observationsPfx : PyStr
  foodGuessPfx : PyStr
  recent_review_template : Template
  fallback_paragraph : PyStr
  missing_info_line : PyStr
deriving DecidableEq, Repr

/-- `str(n)` for a Python int arising from `len(...)`. -/
def natToPyStr (n : Nat) : PyStr :=
  (toString n).toList

/-- `_take_non_empty` (pipeline.py lines 1037-1038). -/
def takeNonEmpty (values : List PyStr) : List PyStr :=
  (values.map pyStrip).filter (fun s => !s.isEmpty)

/-- The loop of `_unique_limited`, with its `break` once `limit`
results are kept. -/
def uniqueLimitedGo (limit : Nat) (seen acc : List PyStr) : List PyStr → List PyStr
  | [] => acc
  | v :: rest =>
    let cleaned := pyStrip v
    if cleaned.isEmpty then uniqueLimitedGo limit seen acc rest
    else if seen.contains cleaned then uniqueLimitedGo limit seen acc rest
    else
      let acc' := acc ++ [cleaned]
      if limit ≤ acc'.length then acc'
      else uniqueLimitedGo limit (seen ++ [cleaned]) acc' rest

/-- `_unique_limited` (pipeline.py lines 1041-1054). -/
def uniqueLimited (values : List PyStr) (limit : Nat) : List PyStr :=
  uniqueLimitedGo limit [] [] values

/-- Python `str.rstrip()`. -/
def pyRstrip (s : PyStr) : PyStr :=
  (s.reverse.dropWhile pySpace).reverse

/-- `sep.join(parts)`. -/
def pyJoin (sep : PyStr) : List PyStr → PyStr
  | [] => []
  | [x] => x
  | x :: y :: xs => x ++ sep ++ pyJoin sep (y :: xs)

/-- `_trim_text` (pipeline.py lines 1057-1061). -/
def trimText (value : PyStr) (maxLen : Nat) : PyStr :=
  let cleaned := pyReplace (pyStrip value) (("\n").toList) ((" ").toList)
  if cleaned.length ≤ maxLen then cleaned
  else pyRstrip (cleaned.take maxLen) ++ ("...").toList

/-- `scene_counter[scene] = scene_counter.get(scene, 0) + 1` on a dict
that preserves first-insertion order. -/
def bumpCounter (counter : List (PyStr × Nat)) (key : PyStr) : List (PyStr × Nat) :=
  match counter with
  | [] => [(key, 1)]
  | (k, n) :: rest =>
    if k = key then (k, n + 1) :: rest else (k, n) :: bumpCounter rest key

/-- The `for result in vision_results` loop of `_build_paragraphs`:
scene frequency dict, concatenated observations, concatenated food
guesses. -/
def sceneStats (visionResults : List VisionImageResult) :
    List (PyStr × Nat) × List PyStr × List PyStr :=
  visionResults.foldl
    (fun acc result =>
      match result.analysis with
      | none => acc
      | some a =>
        let scene :=
          if (pyStrip a.scene_type).isEmpty then ("other").toList else pyStrip a.scene_type
        (bumpCounter acc.1 scene,
         acc.2.1 ++ takeNonEmpty a.observations,
         acc.2.2 ++ takeNonEmpty a.food_guess))
    ([], [], [])

/-- `_build_paragraphs` (pipeline.py lines 972-1034) up to and
including the fallback append — the value of the local variable
`paragraphs` at line 1034, before the final filter-and-sanitize
comprehension. -/
def buildParagraphsPre (manifest : Manifest) (restaurantInfo : RestaurantInfo)
    (visionResults : List VisionImageResult) (prompts : PromptSet) : List PyStr :=
  let intro := formatTemplate prompts.intro_template
    [(("visit_date").toList, manifest.visit_date),
     (("image_count").toList, natToPyStr manifest.images.length),
     (("restaurant_name").toList, manifest.restaurant_name)]
  let stats := sceneStats visionResults
  let sceneSummary :=
    if stats.1.isEmpty then []
    else
      let topScenes := (stats.1.mergeSort (fun a b => decide (b.2 ≤ a.2))).take 3
      let sceneText := pyJoin ((", ").toList)
        (topScenes.map (fun pair => pair.1 ++ (" ").toList ++ natToPyStr pair.2 ++ ("장").toList))
      [formatTemplate prompts.scene_summary_template
        [(("scene_text").toList, sceneText),
         (("restaurant_name").toList, manifest.restaurant_name)]]
  let observationLine :=
    if stats.2.1.isEmpty then []
    else [prompts.observationsPfx ++ pyJoin ((" / ").toList) (uniqueLimited stats.2.1 3)]
  let foodLine :=
    if stats.2.2.isEmpty then []
    else [prompts.foodGuessPfx ++ pyJoin ((", ").toList) (uniqueLimited stats.2.2 3)]
  let reviewLine :=
    match restaurantInfo.recent_reviews with
    | [] => []
    | latest :: _ =>
      let summary := trimText latest.text 90
      if summary.isEmpty then []
      else [formatTemplate prompts.recent_review_template
        [(("review_count").toList, natToPyStr restaurantInfo.recent_reviews.length),
         (("summary").toList, summary),
         (("restaurant_name").toList, manifest.restaurant_name)]]
  let paragraphs := [intro] ++ sceneSummary ++ observationLine ++ foodLine ++ reviewLine
  if paragraphs.length = 1 then paragraphs ++ [prompts.fallback_paragraph] else paragraphs

/-- `_build_paragraphs` (pipeline.py lines 972-1034): the returned
value — keep the paragraphs that are non-blank before sanitizing, and
sanitize each kept one. -/
def buildParagraphs (manifest : Manifest) (restaurantInfo : RestaurantInfo)
    (visionResults : List VisionImageResult) (prompts : PromptSet) : List PyStr :=
  ((buildParagraphsPre manifest restaurantInfo visionResults prompts).filter
      (fun item => !(pyStrip item).isEmpty)).map sanitizeText

/-! ### Statement-level helpers -/

/-- The visit date a folder entry sorts by in
`select_latest_source_folders` (defined when parsing succeeds). -/
def entryDate (e : SourceFolderEntry) : PyStr :=
  match parseSourceFolderName e.folder_name with
  | .ok p => p.visit_date
  | .error _ => []

/-- An unfolding tree of the folder graph seen through a storage
client: one node per reachable folder occurrence.  A finite acyclic
folder-children relation unfolds from its root into such a (finite)
tree; conversely the existence of an agreeing tree bounds the
traversal. -/
inductive DriveTree where
  | node (id : PyStr) (children : List DriveTree)
deriving Repr

/-- The folder id at the root of an unfolding tree. -/
def DriveTree.rootId : DriveTree → PyStr
  | .node i _ => i

mutual

/-- Number of folder nodes of an unfolding tree. -/
def DriveTree.size : DriveTree → Nat
  | .node _ cs => 1 + DriveTree.sizeForest cs

/-- Total number of folder nodes of a forest. -/
def DriveTree.sizeForest : List DriveTree → Nat
  | [] => 0
  | t :: ts => DriveTree.size t + DriveTree.sizeForest ts

end

mutual

/-- The tree is the client's unfolding: at every node, the cleaned
folder children of `list_children` on the node's id are exactly the
node's child subtrees, in order. -/
def agreesWithTree (client : DriveClient) : DriveTree → Bool
  | .node i cs =>
    ((collectChildrenStep (client i)).1 == cs.map DriveTree.rootId) &&
      agreesWithForest client cs

/-- `agreesWithTree` on every tree of a forest. -/
def agreesWithForest (client : DriveClient) : List DriveTree → Bool
  | [] => true
  | t :: ts => agreesWithTree client t && agreesWithForest client ts

end

mutual

/-- The cleaned supported image entries of every folder occurrence of
the unfolding tree, folder by folder. -/
def reachableImages (client : DriveClient) : DriveTree → List ImageEntry
  | .node i cs => (collectChildrenStep (client i)).2 ++ reachableImagesForest client cs

/-- `reachableImages` over a forest, tree by tree. -/
def reachableImagesForest (client : DriveClient) : List DriveTree → List ImageEntry
  | [] => []
  | t :: ts => reachableImages client t ++ reachableImagesForest client ts

end

/-- A two-folder sample storage: the root holds a subfolder, one
supported image and one ignored file; the subfolder holds one image. -/
def sampleDriveClient : DriveClient := fun folderId =>
  if folderId = ("root").toList then
    [{ id := some (("sub").toList), name := some (("sub").toList),
       mimeType := some driveFolderMimeType },
     { id := some (("f2").toList), name := some (("B.JPG").toList),
       mimeType := some (("image/jpeg").toList) },
     { id := some (("x").toList), name := some (("notes.txt").toList),
       mimeType := some (("text/plain").toList) }]
  else if folderId = ("sub").toList then
    [{ id := some (("f1").toList), name := some (("a.png").toList),
       mimeType := some (("image/png").toList) }]
  else []

/-- The unfolding tree of `sampleDriveClient` from `root`. -/
def sampleDriveTree : DriveTree :=
  .node (("root").toList) [.node (("sub").toList) []]

end BlogAgent

namespace BlogAgent

/-! ## Theorems -/

/-- C1: the repository's own test (test_html_rules.py lines 39-46)
feeds a document whose only candidate defect is a line consisting of a
double-quoted complete sentence and requires `passed=False` with a
"quoted full-sentence emphasis" violation; `validate_html_document`
implements no such rule and accepts that exact document with an
empty violation list. -/
theorem c1_quoted_sentence_document_passes :
    validateHtmlDocument
        (("<html><head><title>x</title></head><body><p>\"정말 최고였다\"</p></body></html>").toList)
        1 =
      { passed := true, violations := [] } := by
  decide

/-- C8: `passed` is true exactly when the violation list is empty, and
a document containing `<html` and `<head` but not `<body`, containing
`.gif` and an emoji, and triggering no other rule, yields exactly the
three violations missing-body, banned-`.gif` and emoji, with
`passed=false`. -/
theorem c8_validate_missing_body_gif_emoji (html : PyStr) (count : Int)
    (hhtml : hasSubstring (("<html").toList) (pyLower html) = true)
    (hhead : hasSubstring (("<head").toList) (pyLower html) = true)
    (hbody : hasSubstring (("<body").toList) (pyLower html) = false)
    (hstar : hasSubstring (("**").toList) (pyLower html) = false)
    (hhr : hasSubstring (("<hr").toList) (pyLower html) = false)
    (hgif : hasSubstring ((".gif").toList) (pyLower html) = true)
    (himg : hasSubstring (("image/gif").toList) (pyLower html) = false)
    (hemoji : hasEmoji html = true)
    (hreview : count ≠ 0 ∨
      reviewReferenceKeywords.find? (fun kw => hasSubstring (pyLower kw) (pyLower html)) = none) :
    (validateHtmlDocument html count).violations =
        [("missing <body> tag").toList,
         ("contains banned token: .gif").toList,
         ("contains emoji").toList] ∧
      (validateHtmlDocument html count).passed = false ∧
      ∀ (h : PyStr) (c : Int),
        ((validateHtmlDocument h c).passed = true ↔ (validateHtmlDocument h c).violations = []) := by
  have hrev : (if count = 0 then
      (match reviewReferenceKeywords.find? (fun kw => hasSubstring (pyLower kw) (pyLower html)) with
        | some kw => [("mentions reviews without recent review data: ").toList ++ kw]
        | none => ([] : List PyStr))
    else []) = [] := by
    rcases hreview with hc | hf
    · rw [if_neg hc]
    · by_cases hc : count = 0
      · rw [if_pos hc, hf]
      · rw [if_neg hc]
  refine ⟨?_, ?_, ?_⟩
  · simp only [validateHtmlDocument, bannedLiterals, List.filterMap_cons, List.filterMap_nil,
      hhtml, hhead, hbody, hstar, hhr, hgif, himg, hemoji, hrev]
    simp
  · simp only [validateHtmlDocument, bannedLiterals, List.filterMap_cons, List.filterMap_nil,
      hhtml, hhead, hbody, hstar, hhr, hgif, himg, hemoji, hrev]
    simp
  · intro h c
    exact List.isEmpty_iff

/-- C8 witness: a concrete document missing `<body`, containing `.gif`
and an emoji, evaluated through the theorem. -/
theorem c8_validate_witness :
    (validateHtmlDocument (("<html><head>x .gif 😀").toList) 1).violations =
        [("missing <body> tag").toList,
         ("contains banned token: .gif").toList,
         ("contains emoji").toList] ∧
      (validateHtmlDocument (("<html><head>x .gif 😀").toList) 1).passed = false := by
  have h := c8_validate_missing_body_gif_emoji (("<html><head>x .gif 😀").toList) 1
    (by decide) (by decide) (by decide) (by decide) (by decide) (by decide) (by decide)
    (by decide) (Or.inl (by decide))
  exact ⟨h.1, h.2.1⟩

/-- C4 counterexample: `VisionClient.analyze` stores the payload's
scene_type verbatim, so a successful provider payload with an
unrecognized scene_type yields a `VisionAnalysis` whose scene_type lies
outside the fixed set — no normalization happens in `analyze`. -/
theorem c4_analyze_stores_unrecognized_scene_type :
    ((visionAnalyze (some (.ok { scene_type := some (("Pancake").toList) }))
        (("f1").toList) (("img1.jpg").toList)).analysis.map VisionAnalysis.scene_type) =
      some (("Pancake").toList) ∧
    allowedSceneTypes.contains (("Pancake").toList) = false := by
  decide

/-- The guarded scene-type value always lies in the fixed set. -/
theorem allowedSceneTypes_contains_ite (t : PyStr) :
    allowedSceneTypes.contains
        (if allowedSceneTypes.contains t = true then t else ("other").toList) = true := by
  by_cases h : allowedSceneTypes.contains t = true
  · rw [if_pos h]; exact h
  · rw [if_neg h]; decide

/-- C4 amended: the scene-type invariant holds of `_normalize_analysis`
(used by the Gemini provider), not of `VisionClient.analyze`: the
normalized scene_type always lies in the fixed six-element set, an
unrecognized (stripped, lowercased) value is coerced to `"other"`, and
`analyze` itself stores the payload's scene_type verbatim (defaulting a
missing key to `"other"`). -/
theorem c4_normalize_scene_type_invariant (payload : VisionPayload)
    (fallbackWarning fileId imageName : PyStr) :
    (normalizeAnalysis payload fallbackWarning).scene_type =
        some (normalizeSceneType payload.scene_type) ∧
      allowedSceneTypes.contains (normalizeSceneType payload.scene_type) = true ∧
      (∀ s, payload.scene_type = some s →
        allowedSceneTypes.contains
            (if (pyLower (pyStrip s)).isEmpty then ("other").toList else pyLower (pyStrip s)) =
          false →
        normalizeSceneType payload.scene_type = ("other").toList) ∧
      (visionAnalyze (some (.ok payload)) fileId imageName).analysis.map
          VisionAnalysis.scene_type =
        some (payload.scene_type.getD (("other").toList)) := by
  refine ⟨rfl, ?_, ?_, rfl⟩
  · simp only [normalizeSceneType]
    exact allowedSceneTypes_contains_ite _
  · intro s hs hcontains
    simp only [normalizeSceneType, hs, Option.getD_some]
    rw [if_neg (by rw [hcontains]; simp)]

/-- C4 amended witness: an unrecognized scene_type is coerced to
`"other"` by the normalizer. -/
theorem c4_normalize_scene_type_witness :
    normalizeSceneType (some (("WEIRD").toList)) = ("other").toList :=
  (c4_normalize_scene_type_invariant { scene_type := some (("WEIRD").toList) } [] [] []).2.2.1
    (("WEIRD").toList) rfl (by decide)

/-- The review loop of `_filter_recent_reviews` keeps, in provider
order, exactly the reviews with a parseable timestamp at or after the
cutoff. -/
theorem filterRecentLoop_eq_filterMap (cutoffTs : Int) (rs : List RawReview) :
    filterRecentLoop cutoffTs rs = rs.filterMap (fun r =>
      match r.time with
      | some t =>
        if cutoffTs ≤ t then
          some { time := t, rating := r.rating.getD 0, text := r.text.getD [],
                 relative_time := r.relative_time.getD [] }
        else none
      | none => none) := by
  induction rs with
  | nil => rfl
  | cons r rest ih =>
    cases ht : r.time with
    | none => simp [filterRecentLoop, List.filterMap_cons, ht, ih]
    | some t =>
      by_cases h : t < cutoffTs
      · have h2 : ¬ (cutoffTs ≤ t) := by omega
        simp [filterRecentLoop, List.filterMap_cons, ht, h, h2, ih]
      · have h2 : cutoffTs ≤ t := by omega
        simp [filterRecentLoop, List.filterMap_cons, ht, h, h2, ih]

/-- C6: with `cutoff_days ≥ 1`, `_filter_recent_reviews` retains a
review exactly when its parseable timestamp is at least
`now − cutoff_days·86400` (boundary inclusive, provider order
preserved, unparseable timestamps dropped); with `cutoff_days < 1` the
result is empty unconditionally. -/
theorem c6_filter_recent_reviews_spec (rs : List RawReview) (cutoffDays nowTs : Int) :
    (1 ≤ cutoffDays →
      filterRecentReviews (some rs) cutoffDays nowTs =
        rs.filterMap (fun r =>
          match r.time with
          | some t =>
            if nowTs - cutoffDays * 24 * 60 * 60 ≤ t then
              some { time := t, rating := r.rating.getD 0, text := r.text.getD [],
                     relative_time := r.relative_time.getD [] }
            else none
          | none => none)) ∧
    (cutoffDays < 1 →
      filterRecentReviews (some rs) cutoffDays nowTs = [] ∧
        filterRecentReviews none cutoffDays nowTs = []) := by
  constructor
  · intro h
    cases rs with
    | nil => rfl
    | cons r rest =>
      have hnotlt : ¬ (cutoffDays < 1) := by omega
      simp only [filterRecentReviews, List.isEmpty_cons, if_neg hnotlt]
      simpa using filterRecentLoop_eq_filterMap (nowTs - cutoffDays * 24 * 60 * 60) (r :: rest)
  · intro h
    refine ⟨?_, rfl⟩
    cases rs with
    | nil => rfl
    | cons r rest => simp [filterRecentReviews, h]

/-- C6 witness: with a one-day cutoff at `now = 100000`, a review
exactly at the boundary `13600 = 100000 − 86400` is retained and one a
second older is dropped. -/
theorem c6_filter_recent_reviews_witness :
    filterRecentReviews
        (some [{ time := some 13600 }, { time := some 13599 }]) 1 100000 =
      [{ time := 13600, rating := 0, text := [], relative_time := [] }] := by
  rw [(c6_filter_recent_reviews_spec
    [{ time := some 13600 }, { time := some 13599 }] 1 100000).1 (by decide)]
  decide


/-- C7: `fetch_restaurant_info` never lets a provider exception
propagate, and each degraded path — absent provider, raising search,
empty search result, missing place id, raising details call — returns
`found=false` with every optional field at its empty/default value. -/
theorem c7_fetch_restaurant_info_degrades (p : PlacesProvider) (restaurantName : PyStr)
    (cutoffDays nowTs : Int) :
    (notFoundInfo cutoffDays =
      { found := false, place_id := [], name := [], address := [], opening_hours := [],
        rating := none, user_ratings_total := none, maps_url := [], website := [],
        recent_reviews := [], recent_reviews_cutoff_days := cutoffDays }) ∧
    fetchRestaurantInfo none restaurantName cutoffDays nowTs = .ok (notFoundInfo cutoffDays) ∧
    (∀ e, p.searchPlace restaurantName = .error e →
      fetchRestaurantInfo (some p) restaurantName cutoffDays nowTs =
        .ok (notFoundInfo cutoffDays)) ∧
    (p.searchPlace restaurantName = .ok none →
      fetchRestaurantInfo (some p) restaurantName cutoffDays nowTs =
        .ok (notFoundInfo cutoffDays)) ∧
    (∀ found, p.searchPlace restaurantName = .ok (some found) →
      pyStrip (pyOrStr found.place_id (pyOrStr found.placeId [])) = [] →
      fetchRestaurantInfo (some p) restaurantName cutoffDays nowTs =
        .ok (notFoundInfo cutoffDays)) ∧
    (∀ found e, p.searchPlace restaurantName = .ok (some found) →
      p.getPlaceDetails (pyStrip (pyOrStr found.place_id (pyOrStr found.placeId []))) =
        .error e →
      fetchRestaurantInfo (some p) restaurantName cutoffDays nowTs =
        .ok (notFoundInfo cutoffDays)) ∧
    (∀ po : Option PlacesProvider,
      ∃ info, fetchRestaurantInfo po restaurantName cutoffDays nowTs = .ok info) := by
  refine ⟨rfl, rfl, ?_, ?_, ?_, ?_, ?_⟩
  · intro e h
    simp [fetchRestaurantInfo, h]
  · intro h
    simp [fetchRestaurantInfo, h]
  · intro found h hpid
    simp [fetchRestaurantInfo, h, hpid]
  · intro found e h hd
    by_cases hpid : (pyStrip (pyOrStr found.place_id (pyOrStr found.placeId []))).isEmpty = true
    · simp [fetchRestaurantInfo, h, hpid]
    · simp [fetchRestaurantInfo, h, hpid, hd]
  · intro po
    match po with
    | none => exact ⟨_, rfl⟩
    | some q =>
      match hq : q.searchPlace restaurantName with
      | .error e =>
        simp only [fetchRestaurantInfo, hq]
        exact ⟨_, rfl⟩
      | .ok none =>
        simp only [fetchRestaurantInfo, hq]
        exact ⟨_, rfl⟩
      | .ok (some found) =>
        by_cases hpid :
            (pyStrip (pyOrStr found.place_id (pyOrStr found.placeId []))).isEmpty = true
        · simp only [fetchRestaurantInfo, hq, hpid, if_true]
          exact ⟨_, rfl⟩
        · rw [Bool.not_eq_true] at hpid
          match hd : q.getPlaceDetails
              (pyStrip (pyOrStr found.place_id (pyOrStr found.placeId []))) with
          | .error e =>
            simp only [fetchRestaurantInfo, hq, hpid, hd, Bool.false_eq_true, if_false]
            exact ⟨_, rfl⟩
          | .ok od =>
            simp only [fetchRestaurantInfo, hq, hpid, hd, Bool.false_eq_true, if_false]
            exact ⟨_, rfl⟩

/-- C7 witness: a provider whose search raises degrades to the default
not-found record. -/
theorem c7_fetch_restaurant_info_witness :
    fetchRestaurantInfo
        (some { searchPlace := fun _ => .error (("boom").toList),
                getPlaceDetails := fun _ => .ok none })
        (("가게").toList) 60 0 =
      .ok (notFoundInfo 60) :=
  (c7_fetch_restaurant_info_degrades
      { searchPlace := fun _ => .error (("boom").toList),
        getPlaceDetails := fun _ => .ok none }
      (("가게").toList) 60 0).2.2.1 (("boom").toList) rfl

/-- C2 counterexample: `select_latest_source_folders` raises (here:
returns the `ValueError`) on an entry whose name fails the folder-name
parser, instead of skipping it. -/
theorem c2_select_latest_raises_on_unparseable :
    selectLatestSourceFolders
        [{ folder_id := ("a").toList, folder_name := ("bad").toList }] 1 =
      .error (("Invalid source folder format: bad").toList) := by
  decide

/-- C5 counterexample: with a whitespace-only intro template and a
one-letter fallback paragraph, `_build_paragraphs` returns a
single-element list — the final filter drops lines that are blank
before sanitizing, which can leave exactly one paragraph. -/
theorem c5_single_paragraph_counterexample :
    buildParagraphs
        { source_folder_id := ("id").toList, source_folder_name := ("n").toList,
          visit_date := ("20260214").toList, restaurant_name := ("r").toList, images := [] }
        (notFoundInfo 60) []
        { title_template := { segs := [], raw := [] },
          intro_template := { segs := [.lit ((" ").toList)], raw := ((" ").toList) },
          scene_summary_template := { segs := [], raw := [] },
          observationsPfx := [], foodGuessPfx := [],
          recent_review_template := { segs := [], raw := [] },
          fallback_paragraph := ("f").toList,
          missing_info_line := [] } =
      [("f").toList] := by
  decide

/-- C5 amended: the paragraph list held right before the final
comprehension (after the fallback append) always has at least two
entries, and the returned list is that list with the lines that are
blank before sanitizing dropped and the rest sanitized — so the
returned list itself can be shorter, including a single paragraph. -/
theorem c5_paragraphs_pre_filter_spec (manifest : Manifest)
    (restaurantInfo : RestaurantInfo) (visionResults : List VisionImageResult)
    (prompts : PromptSet) :
    2 ≤ (buildParagraphsPre manifest restaurantInfo visionResults prompts).length ∧
    buildParagraphs manifest restaurantInfo visionResults prompts =
      ((buildParagraphsPre manifest restaurantInfo visionResults prompts).filter
          (fun item => !(pyStrip item).isEmpty)).map sanitizeText := by
  refine ⟨?_, rfl⟩
  have key : ∀ (a : PyStr) (l : List PyStr) (fb : PyStr),
      2 ≤ (if (a :: l).length = 1 then (a :: l) ++ [fb] else a :: l).length := by
    intro a l fb
    by_cases h : (a :: l).length = 1
    · rw [if_pos h]
      simp [h]
    · rw [if_neg h]
      simp only [List.length_cons] at h ⊢
      omega
  exact key _ _ _

/-- C9 counterexample: a name made of a valid 8-digit calendar date, an
underscore, and a restaurant part that is non-empty after trimming is
still rejected by `parse_source_folder_name` when the restaurant part
contains an interior newline, because `.` in the pattern does not match
newlines. -/
theorem c9_newline_name_counterexample :
    strptimeValidYMD8 (("20260214").toList) = true ∧
    pyStrip (("a
b").toList) ≠ [] ∧
    parseSourceFolderName (("20260214_a
b").toList) =
      .error (("Invalid source folder format: 20260214_a
b").toList) := by
  decide

/-- C3 counterexample: the sanitizer is not idempotent — replacing
`<hr` by `hr` inside `<<hr` manufactures a fresh `<hr`, which only a
second pass removes. -/
theorem c3_sanitize_not_idempotent :
    sanitizeText (("<<hr").toList) = ("<hr").toList ∧
    sanitizeText (sanitizeText (("<<hr").toList)) = ("hr").toList ∧
    sanitizeText (sanitizeText (("<<hr").toList)) ≠ sanitizeText (("<<hr").toList) := by
  decide


/-- Under all-parseable input the enrichment loop succeeds and pairs
every entry with its visit date, in order. -/
theorem enrichWithDates_ok (folders : List SourceFolderEntry)
    (hp : ∀ e ∈ folders, (parseSourceFolderName e.folder_name).isOk = true) :
    enrichWithDates folders = .ok (folders.map (fun e => (entryDate e, e))) := by
  induction folders with
  | nil => rfl
  | cons e es ih =>
    have he := hp e (List.mem_cons_self e es)
    obtain ⟨pf, hpf⟩ : ∃ pf, parseSourceFolderName e.folder_name = .ok pf := by
      cases h : parseSourceFolderName e.folder_name with
      | error err => rw [h] at he; simp [Except.isOk, Except.toBool] at he
      | ok v => exact ⟨v, rfl⟩
    have htail := ih (fun x hx => hp x (List.mem_cons_of_mem e hx))
    have hdate : entryDate e = pf.visit_date := by simp [entryDate, hpf]
    simp only [enrichWithDates, hpf, htail, List.map_cons, hdate]
    rfl

/-- C2 amended: `select_latest_source_folders` raises on unparseable
entries (it does not skip them); on all-parseable candidates with
`n ≥ 1` it succeeds and returns `min n (pool size)` entries forming,
with the leftovers, a permutation of the input, sorted by visit date
descending, and every selected entry's date is at least every
unselected entry's date. -/
theorem c2_select_latest_parseable_spec (folders : List SourceFolderEntry) (n : Int)
    (hn : 1 ≤ n)
    (hp : ∀ e ∈ folders, (parseSourceFolderName e.folder_name).isOk = true) :
    ∃ res rest,
      selectLatestSourceFolders folders n = .ok res ∧
      res.length = min n.toNat folders.length ∧
      (res ++ rest).Perm folders ∧
      res.Pairwise (fun a b => entryDate b ≤ entryDate a) ∧
      (∀ a ∈ res, ∀ b ∈ rest, entryDate b ≤ entryDate a) := by
  have henrich := enrichWithDates_ok folders hp
  have hnot : ¬ (n < 1) := by omega
  have htrans : ∀ a b c : PyStr × SourceFolderEntry,
      (fun x y : PyStr × SourceFolderEntry => decide (y.1 ≤ x.1)) a b →
      (fun x y : PyStr × SourceFolderEntry => decide (y.1 ≤ x.1)) b c →
      (fun x y : PyStr × SourceFolderEntry => decide (y.1 ≤ x.1)) a c := by
    intro a b c h1 h2
    simp only [decide_eq_true_eq] at *
    exact le_trans h2 h1
  have htot : ∀ a b : PyStr × SourceFolderEntry,
      (fun x y : PyStr × SourceFolderEntry => decide (y.1 ≤ x.1)) a b ||
        (fun x y : PyStr × SourceFolderEntry => decide (y.1 ≤ x.1)) b a := by
    intro a b
    by_cases h : b.1 ≤ a.1
    · simp [h]
    · simp [h, le_of_not_le h]
  set enriched := folders.map (fun e => (entryDate e, e)) with henr
  set sorted := enriched.mergeSort (fun a b => decide (b.1 ≤ a.1)) with hsorted_def
  have hperm : sorted.Perm enriched := List.mergeSort_perm enriched _
  have hsorted : sorted.Pairwise
      (fun a b : PyStr × SourceFolderEntry => decide (b.1 ≤ a.1) = true) := by
    rw [hsorted_def]
    exact List.sorted_mergeSort htrans htot enriched
  have hfst : ∀ pr ∈ sorted, pr.1 = entryDate pr.2 := by
    intro pr hpr
    have hmem : pr ∈ enriched := hperm.mem_iff.mp hpr
    rw [henr] at hmem
    obtain ⟨e, _, rfl⟩ := List.mem_map.mp hmem
    rfl
  refine ⟨(sorted.take n.toNat).map Prod.snd, (sorted.drop n.toNat).map Prod.snd, ?_, ?_, ?_, ?_, ?_⟩
  · simp [selectLatestSourceFolders, hnot, henrich, hsorted_def]
  · rw [List.length_map, List.length_take, hsorted_def, List.length_mergeSort, henr,
      List.length_map]
  · have hjoin : (sorted.take n.toNat).map Prod.snd ++ (sorted.drop n.toNat).map Prod.snd =
        sorted.map Prod.snd := by
      rw [← List.map_append, List.take_append_drop]
    rw [hjoin]
    have h2 : (sorted.map Prod.snd).Perm (enriched.map Prod.snd) := hperm.map _
    have hmm : enriched.map Prod.snd = folders := by
      rw [henr, List.map_map]
      simp [Function.comp_def]
    rw [hmm] at h2
    exact h2
  · rw [List.pairwise_map]
    have htake : (sorted.take n.toNat).Pairwise
        (fun a b : PyStr × SourceFolderEntry => decide (b.1 ≤ a.1) = true) :=
      hsorted.sublist (List.take_sublist _ _)
    refine htake.imp_of_mem ?_
    intro a b ha hb h
    have ha' := hfst a (List.take_subset _ _ ha)
    have hb' := hfst b (List.take_subset _ _ hb)
    rw [decide_eq_true_eq] at h
    rw [← ha', ← hb']
    exact h
  · intro a ha b hb
    obtain ⟨x, hx, rfl⟩ := List.mem_map.mp ha
    obtain ⟨y, hy, rfl⟩ := List.mem_map.mp hb
    have hcross : ∀ u ∈ sorted.take n.toNat, ∀ v ∈ sorted.drop n.toNat,
        decide (v.1 ≤ u.1) = true := by
      have hsp : ((sorted.take n.toNat) ++ (sorted.drop n.toNat)).Pairwise
          (fun a b : PyStr × SourceFolderEntry => decide (b.1 ≤ a.1) = true) := by
        rw [List.take_append_drop]
        exact hsorted
      exact (List.pairwise_append.mp hsp).2.2
    have h := hcross x hx y hy
    rw [decide_eq_true_eq] at h
    have hx' := hfst x (List.take_subset _ _ hx)
    have hy' := hfst y (List.drop_subset _ _ hy)
    rw [← hx', ← hy']
    exact h

/-- C2 amended witness: the selection from the repository test —
three dated folders, latest two — through the theorem. -/
theorem c2_select_latest_witness :
    ∃ res rest,
      selectLatestSourceFolders
          [{ folder_id := ("a").toList, folder_name := ("20260210_가게A").toList },
           { folder_id := ("b").toList, folder_name := ("20260214_가게B").toList },
           { folder_id := ("c").toList, folder_name := ("20260211_가게C").toList }] 2 =
        .ok res ∧
      res.length = 2 ∧
      (res ++ rest).Perm
        [{ folder_id := ("a").toList, folder_name := ("20260210_가게A").toList },
         { folder_id := ("b").toList, folder_name := ("20260214_가게B").toList },
         { folder_id := ("c").toList, folder_name := ("20260211_가게C").toList }] ∧
      res.Pairwise (fun a b => entryDate b ≤ entryDate a) := by
  obtain ⟨res, rest, h1, h2, h3, h4, _⟩ := c2_select_latest_parseable_spec
    [{ folder_id := ("a").toList, folder_name := ("20260210_가게A").toList },
     { folder_id := ("b").toList, folder_name := ("20260214_가게B").toList },
     { folder_id := ("c").toList, folder_name := ("20260211_가게C").toList }] 2
    (by decide) (by decide)
  exact ⟨res, rest, h1, by simpa using h2, h3, h4⟩


/-- C9 amended: a folder name consisting of 8 digits forming a valid
calendar date, an underscore, and a newline-free restaurant part that
is non-empty after trimming parses to exactly that date and the trimmed
restaurant part; conversely a successful parse forces an 8-digit valid
date prefix, an underscore at index 8, and a non-empty trimmed
restaurant name — so names with a wrong digit count, a non-digit in the
date segment, an impossible date, or a blank restaurant part all
fail. -/
theorem c9_parse_folder_name_spec :
    (∀ (ds rest : PyStr),
      ds.length = 8 → ds.all isPyDigit = true → strptimeValidYMD8 ds = true →
      rest.contains '\n' = false → pyStrip rest ≠ [] →
      parseSourceFolderName (ds ++ '_' :: rest) =
        .ok { visit_date := ds, restaurant_name := pyStrip rest }) ∧
    (∀ (name : PyStr) (pf : ParsedFolderName),
      parseSourceFolderName name = .ok pf →
      (name.take 8).length = 8 ∧ (name.take 8).all isPyDigit = true ∧
        name.get? 8 = some '_' ∧ strptimeValidYMD8 (name.take 8) = true ∧
        pf.visit_date = name.take 8 ∧ pf.restaurant_name ≠ []) := by
  constructor
  · intro ds rest h8 hdig hval hnl hne
    have hrest_ne : rest ≠ [] := by
      intro h
      rw [h] at hne
      exact hne rfl
    have hmem : ¬ ('\n' ∈ rest) := by
      intro h
      rw [← List.elem_iff] at h
      rw [List.contains] at hnl
      rw [hnl] at h
      cases h
    have hlast : ¬ (rest.getLast? = some '\n') := by
      intro h
      exact hmem (List.mem_of_mem_getLast? h)
    have hcond : (!rest.isEmpty && !(rest.contains '\n')) = true := by
      rw [hnl, List.isEmpty_eq_false.mpr hrest_ne]
      rfl
    have hmde : matchDotPlusEnd rest = some rest := by
      simp only [matchDotPlusEnd]
      rw [if_neg hlast, if_pos hcond]
    have htake : (ds ++ '_' :: rest).take 8 = ds := by
      rw [List.take_append_of_le_length (by omega)]
      exact List.take_of_length_le (by omega)
    have hget : (ds ++ '_' :: rest).get? 8 = some '_' := by
      rw [List.get?_append_right (by omega), h8]
      rfl
    have hdrop : (ds ++ '_' :: rest).drop 9 = rest := by
      have h9 : ds ++ '_' :: rest = (ds ++ ['_']) ++ rest := by simp
      rw [h9]
      exact List.drop_left' (by simp [h8])
    have hmfn : matchFolderName (ds ++ '_' :: rest) = some (ds, rest) := by
      simp only [matchFolderName, htake, hget, hdrop, h8, hdig, hmde]
      simp
    simp only [parseSourceFolderName, hmfn]
    rw [if_neg (by rw [List.isEmpty_eq_false.mpr hne]; simp), if_pos hval]
  · intro name pf h
    simp only [parseSourceFolderName] at h
    cases hm : matchFolderName name with
    | none => rw [hm] at h; cases h
    | some pr =>
      obtain ⟨vd, grp⟩ := pr
      rw [hm] at h
      simp only at h
      have hmatch : (name.take 8).length = 8 ∧ (name.take 8).all isPyDigit = true ∧
          name.get? 8 = some '_' ∧ vd = name.take 8 := by
        simp only [matchFolderName] at hm
        by_cases hc : ((name.take 8).length = 8 && (name.take 8).all isPyDigit
            && name.get? 8 = some '_') = true
        · obtain ⟨hc1, hc3⟩ := Bool.and_eq_true_iff.mp hc
          obtain ⟨hc1a, hc1b⟩ := Bool.and_eq_true_iff.mp hc1
          rw [if_pos hc] at hm
          cases hd : matchDotPlusEnd (name.drop 9) with
          | none => rw [hd] at hm; cases hm
          | some core =>
            rw [hd] at hm
            injection hm with hm2
            rw [Prod.mk.injEq] at hm2
            have hvd : vd = name.take 8 := hm2.1.symm
            refine ⟨by simpa using hc1a, by simpa using hc1b, by simpa using hc3, hvd⟩
        · rw [if_neg hc] at hm
          cases hm
      by_cases he : (pyStrip grp).isEmpty = true
      · rw [if_pos he] at h
        cases h
      · rw [if_neg he] at h
        by_cases hv : strptimeValidYMD8 vd = true
        · rw [if_pos hv] at h
          injection h with hpf
          obtain ⟨h1, h2, h3, h4⟩ := hmatch
          refine ⟨h1, h2, h3, by rw [← h4]; exact hv, ?_, ?_⟩
          · rw [← hpf, ← h4]
          · rw [← hpf]
            simp only []
            intro hcontra
            rw [hcontra] at he
            exact he rfl
        · rw [if_neg hv] at h
          cases h

/-- C9 amended witness: the repository test's own valid name parses to
its date and restaurant part. -/
theorem c9_parse_folder_name_witness :
    parseSourceFolderName (("20260214_스시로쿠").toList) =
      .ok { visit_date := ("20260214").toList,
            restaurant_name := pyStrip (("스시로쿠").toList) } := by
  have h := c9_parse_folder_name_spec.1 (("20260214").toList) (("스시로쿠").toList)
    (by decide) (by decide) (by decide) (by decide) (by decide)
  exact h


/-- A replacement scan leaves a string without the pattern unchanged. -/
theorem pyReplaceGo_self_of_absent_pattern (pc : Char) (ps rep : PyStr) :
    ∀ s : PyStr, hasSubstring (pc :: ps) s = false → pyReplaceGo pc ps rep s 0 = s := by
  intro s
  induction s with
  | nil => intro _; rfl
  | cons c rest ih =>
    intro h
    rw [hasSubstring, Bool.or_eq_false_iff] at h
    rw [pyReplaceGo, if_neg (by rw [h.1]; exact Bool.false_ne_true)]
    rw [ih h.2]

/-- `str.replace` on a string not containing the pattern is the
identity. -/
theorem pyReplace_self_of_absent_pattern (s pat rep : PyStr)
    (h : hasSubstring pat s = false) : pyReplace s pat rep = s := by
  cases pat with
  | nil => rfl
  | cons pc ps => exact pyReplaceGo_self_of_absent_pattern pc ps rep s h

/-- Deleting emoji from an emoji-free string is the identity. -/
theorem stripEmoji_self_of_not_hasEmoji (s : PyStr) (h : hasEmoji s = false) :
    stripEmoji s = s := by
  apply List.filter_eq_self.mpr
  rw [hasEmoji, List.any_eq_false] at h
  intro a ha
  have hx : isEmojiChar a = false := by
    have hna := h a ha
    rw [Bool.not_eq_true] at hna
    exact hna
  rw [hx]
  rfl

/-- `dropWhile` leaves the back-stripped string unchanged when it
already leaves the whole string unchanged. -/
theorem dropWhile_backStrip_eq (p : Char → Bool) (w : PyStr)
    (hfront : w.dropWhile p = w) :
    ((w.reverse.dropWhile p).reverse).dropWhile p = (w.reverse.dropWhile p).reverse := by
  cases hbw : (w.reverse.dropWhile p).reverse with
  | nil => rfl
  | cons a t =>
    have hpre : ((w.reverse.dropWhile p).reverse).IsPrefix w := by
      apply List.reverse_suffix.mp
      rw [List.reverse_reverse]
      exact List.dropWhile_suffix p
    rw [hbw] at hpre
    obtain ⟨tail, hw⟩ := hpre
    have hpa : p a = false := by
      by_contra hc
      rw [Bool.not_eq_false] at hc
      have : w.dropWhile p = (t ++ tail).dropWhile p := by
        rw [← hw, List.cons_append, List.dropWhile_cons, hc]
        simp
      rw [hfront] at this
      have hlen : w.length ≤ (t ++ tail).length := by
        rw [this]
        exact (List.dropWhile_sublist p).length_le
      rw [← hw] at hlen
      simp at hlen
    rw [List.dropWhile_cons, hpa]
    simp

/-- Python `strip` is idempotent. -/
theorem pyStrip_idempotent (s : PyStr) : pyStrip (pyStrip s) = pyStrip s := by
  have hfront : (pyStrip s).dropWhile pySpace = pyStrip s := by
    have h1 : (s.dropWhile pySpace).dropWhile pySpace = s.dropWhile pySpace :=
      List.dropWhile_idempotent pySpace s
    exact dropWhile_backStrip_eq pySpace (s.dropWhile pySpace) h1
  show (((pyStrip s).dropWhile pySpace).reverse.dropWhile pySpace).reverse = pyStrip s
  rw [hfront]
  show (((((s.dropWhile pySpace).reverse.dropWhile pySpace).reverse).reverse).dropWhile
      pySpace).reverse = pyStrip s
  rw [List.reverse_reverse, List.dropWhile_idempotent]
  rfl

/-- C3 amended: the sanitizer is a strip of its own output, and on any
input whose single-pass output is free of every banned pattern — no
`**`, no double quote, no `<hr`, no `.gif`, no `image/gif`, no emoji —
a second pass changes nothing.  (Without that condition idempotence
fails: replacements may manufacture fresh banned occurrences.) -/
theorem c3_sanitize_idempotent_on_clean (s : PyStr)
    (h1 : hasSubstring (("**").toList) (sanitizeText s) = false)
    (h2 : hasSubstring (("\"").toList) (sanitizeText s) = false)
    (h3 : hasSubstring (("<hr").toList) (sanitizeText s) = false)
    (h4 : hasSubstring ((".gif").toList) (sanitizeText s) = false)
    (h5 : hasSubstring (("image/gif").toList) (sanitizeText s) = false)
    (h6 : hasEmoji (sanitizeText s) = false) :
    sanitizeText (sanitizeText s) = sanitizeText s := by
  show pyStrip (stripEmoji (pyReplace (pyReplace (pyReplace (pyReplace (pyReplace
      (sanitizeText s) (("**").toList) []) (("\"").toList) []) (("<hr").toList)
      (("hr").toList)) ((".gif").toList) ((".img").toList)) (("image/gif").toList)
      (("image").toList))) = sanitizeText s
  rw [pyReplace_self_of_absent_pattern _ _ _ h1, pyReplace_self_of_absent_pattern _ _ _ h2,
    pyReplace_self_of_absent_pattern _ _ _ h3, pyReplace_self_of_absent_pattern _ _ _ h4,
    pyReplace_self_of_absent_pattern _ _ _ h5, stripEmoji_self_of_not_hasEmoji _ h6]
  show pyStrip (pyStrip (stripEmoji (pyReplace (pyReplace (pyReplace (pyReplace (pyReplace
      s (("**").toList) []) (("\"").toList) []) (("<hr").toList) (("hr").toList))
      ((".gif").toList) ((".img").toList)) (("image/gif").toList) (("image").toList)))) =
    sanitizeText s
  rw [pyStrip_idempotent]
  rfl

/-- C3 amended witness: a string whose sanitized form is clean, taken
through the theorem. -/
theorem c3_sanitize_idempotent_witness :
    sanitizeText (sanitizeText (("a ** b").toList)) = sanitizeText (("a ** b").toList) :=
  c3_sanitize_idempotent_on_clean (("a ** b").toList)
    (by decide) (by decide) (by decide) (by decide) (by decide) (by decide)


/-- Forest size distributes over append. -/
theorem sizeForest_append (xs ys : List DriveTree) :
    DriveTree.sizeForest (xs ++ ys) = DriveTree.sizeForest xs + DriveTree.sizeForest ys := by
  induction xs with
  | nil => simp [DriveTree.sizeForest]
  | cons t ts ih =>
    rw [List.cons_append,
      show DriveTree.sizeForest (t :: (ts ++ ys)) =
        t.size + DriveTree.sizeForest (ts ++ ys) from rfl,
      show DriveTree.sizeForest (t :: ts) = t.size + DriveTree.sizeForest ts from rfl,
      ih]
    omega

/-- Every unfolding tree has at least its root node. -/
theorem size_pos (t : DriveTree) : 1 ≤ t.size := by
  cases t with
  | node i cs =>
    rw [DriveTree.size]
    omega

/-- Forest agreement distributes over append. -/
theorem agreesWithForest_append (client : DriveClient) (xs ys : List DriveTree) :
    agreesWithForest client (xs ++ ys) =
      (agreesWithForest client xs && agreesWithForest client ys) := by
  induction xs with
  | nil => simp [agreesWithForest]
  | cons t ts ih =>
    rw [List.cons_append,
      show agreesWithForest client (t :: (ts ++ ys)) =
        (agreesWithTree client t && agreesWithForest client (ts ++ ys)) from rfl,
      show agreesWithForest client (t :: ts) =
        (agreesWithTree client t && agreesWithForest client ts) from rfl,
      ih, Bool.and_assoc]

/-- Reachable images distribute over forest append. -/
theorem reachForest_append (client : DriveClient) (xs ys : List DriveTree) :
    reachableImagesForest client (xs ++ ys) =
      reachableImagesForest client xs ++ reachableImagesForest client ys := by
  induction xs with
  | nil => simp [reachableImagesForest]
  | cons t ts ih =>
    rw [List.cons_append,
      show reachableImagesForest client (t :: (ts ++ ys)) =
        reachableImages client t ++ reachableImagesForest client (ts ++ ys) from rfl,
      show reachableImagesForest client (t :: ts) =
        reachableImages client t ++ reachableImagesForest client ts from rfl,
      ih, List.append_assoc]

/-- The traversal loop on an empty stack returns the accumulator. -/
theorem collectImagesGo_nil (client : DriveClient) (fuel : Nat) (acc : List ImageEntry) :
    collectImagesGo client fuel [] acc = some acc := by
  rw [collectImagesGo]
  rfl

/-- One iteration of the traversal loop: pop the last stack entry,
push its cleaned folder children, collect its cleaned images. -/
theorem collectImagesGo_step (client : DriveClient) (n : Nat) (gs : List PyStr) (i : PyStr)
    (acc : List ImageEntry) :
    collectImagesGo client (n + 1) (gs ++ [i]) acc =
      collectImagesGo client n (gs ++ (collectChildrenStep (client i)).1)
        (acc ++ (collectChildrenStep (client i)).2) := by
  rw [collectImagesGo]
  rw [List.getLast?_concat]
  simp only [List.dropLast_concat]

/-- The loop, on the id stack of an agreeing forest with fuel at least
the forest size, terminates with the accumulator extended by a
permutation of the forest's reachable images. -/
theorem collectImagesGo_forest_spec (client : DriveClient) :
    ∀ (n : Nat) (ts : List DriveTree) (acc : List ImageEntry),
      agreesWithForest client ts = true →
      DriveTree.sizeForest ts ≤ n →
      ∃ l, collectImagesGo client n (ts.map DriveTree.rootId) acc = some l ∧
        l.Perm (acc ++ reachableImagesForest client ts) := by
  intro n
  induction n with
  | zero =>
    intro ts acc hagree hsize
    have hts : ts = [] := by
      cases ts with
      | nil => rfl
      | cons t ts' =>
        exfalso
        have h1 := size_pos t
        rw [DriveTree.sizeForest] at hsize
        omega
    subst hts
    exact ⟨acc, collectImagesGo_nil client 0 acc, by simp [reachableImagesForest]⟩
  | succ n ih =>
    intro ts acc hagree hsize
    rcases List.eq_nil_or_concat' ts with hts | ⟨ts', t, hts⟩
    · subst hts
      exact ⟨acc, collectImagesGo_nil client (n + 1) acc, by simp [reachableImagesForest]⟩
    · subst hts
      cases t with
      | node i cs =>
        rw [agreesWithForest_append, Bool.and_eq_true_iff] at hagree
        obtain ⟨htsagree, hsingle⟩ := hagree
        have hnode : agreesWithTree client (DriveTree.node i cs) = true := by
          simpa [agreesWithForest] using hsingle
        rw [agreesWithTree, Bool.and_eq_true_iff] at hnode
        obtain ⟨hstepeq, hcs⟩ := hnode
        have hstep1 : (collectChildrenStep (client i)).1 = cs.map DriveTree.rootId := by
          exact beq_iff_eq.mp hstepeq
        have hmap : (ts' ++ [DriveTree.node i cs]).map DriveTree.rootId =
            ts'.map DriveTree.rootId ++ [i] := by
          simp [DriveTree.rootId]
        rw [hmap, collectImagesGo_step]
        have hstack : ts'.map DriveTree.rootId ++ (collectChildrenStep (client i)).1 =
            (ts' ++ cs).map DriveTree.rootId := by
          rw [hstep1, ← List.map_append]
        rw [hstack]
        have honesize : DriveTree.sizeForest [DriveTree.node i cs] =
            1 + DriveTree.sizeForest cs := by
          rw [DriveTree.sizeForest, DriveTree.size, DriveTree.sizeForest]
          omega
        have hsz : DriveTree.sizeForest (ts' ++ cs) ≤ n := by
          rw [sizeForest_append] at hsize ⊢
          rw [honesize] at hsize
          omega
        have hagree2 : agreesWithForest client (ts' ++ cs) = true := by
          rw [agreesWithForest_append, Bool.and_eq_true_iff]
          exact ⟨htsagree, hcs⟩
        obtain ⟨l, hl, hperm⟩ :=
          ih (ts' ++ cs) (acc ++ (collectChildrenStep (client i)).2) hagree2 hsz
        refine ⟨l, hl, ?_⟩
        have htarget : reachableImagesForest client (ts' ++ [DriveTree.node i cs]) =
            reachableImagesForest client ts' ++
              ((collectChildrenStep (client i)).2 ++ reachableImagesForest client cs) := by
          rw [reachForest_append]
          simp [reachableImagesForest, reachableImages]
        rw [htarget]
        rw [reachForest_append] at hperm
        refine hperm.trans ?_
        simp only [List.append_assoc]
        apply List.Perm.append_left
        rw [← List.append_assoc, ← List.append_assoc]
        exact (List.perm_append_comm).append_right (reachableImagesForest client cs)

/-- One loop-body iteration only ever adds clean supported images. -/
theorem collectChildEntry_mem (entry : DriveEntry) (acc : List PyStr × List ImageEntry)
    (e : ImageEntry) (he : e ∈ (collectChildEntry acc entry).2) :
    e ∈ acc.2 ∨ cleanSupportedImage e := by
  simp only [collectChildEntry] at he
  by_cases hblank : (List.isEmpty (pyStrip (entry.id.getD [])) ||
      List.isEmpty (pyStrip (entry.name.getD [])) ||
      List.isEmpty (pyStrip (entry.mimeType.getD []))) = true
  · rw [if_pos hblank] at he
    exact Or.inl he
  · rw [if_neg hblank] at he
    by_cases hfold : pyStrip (entry.mimeType.getD []) = driveFolderMimeType
    · rw [if_pos hfold] at he
      exact Or.inl he
    · rw [if_neg hfold] at he
      by_cases hsupp : isSupportedImageFilename (pyStrip (entry.name.getD [])) = true
      · rw [if_pos hsupp] at he
        rcases List.mem_append.mp he with h | h
        · exact Or.inl h
        · right
          have heq : e = ImageEntry.mk (pyStrip (entry.id.getD []))
              (pyStrip (entry.name.getD [])) (pyStrip (entry.mimeType.getD [])) := by
            simpa using h
          rw [Bool.not_eq_true, Bool.or_eq_false_iff, Bool.or_eq_false_iff] at hblank
          obtain ⟨⟨hid, hname⟩, hmime⟩ := hblank
          subst heq
          exact ⟨List.isEmpty_eq_false.mp hid, List.isEmpty_eq_false.mp hname,
            List.isEmpty_eq_false.mp hmime, hfold, hsupp⟩
      · rw [if_neg hsupp] at he
        exact Or.inl he

/-- Everything the loop body collects over a child listing is a clean
supported image. -/
theorem collectChildrenStep_mem (entries : List DriveEntry) (e : ImageEntry)
    (he : e ∈ (collectChildrenStep entries).2) : cleanSupportedImage e := by
  suffices h : ∀ acc : List PyStr × List ImageEntry,
      e ∈ (entries.foldl collectChildEntry acc).2 → e ∈ acc.2 ∨ cleanSupportedImage e by
    rcases h ([], []) he with h1 | h1
    · simp at h1
    · exact h1
  clear he
  induction entries with
  | nil =>
    intro acc h
    exact Or.inl h
  | cons entry rest ih =>
    intro acc h
    rw [List.foldl_cons] at h
    rcases ih (collectChildEntry acc entry) h with h1 | h1
    · exact collectChildEntry_mem entry acc e h1
    · exact Or.inr h1

/-- Membership in a forest's reachable images comes from one of its
trees. -/
theorem mem_reachForest_iff (client : DriveClient) (e : ImageEntry) :
    ∀ l : List DriveTree, (e ∈ reachableImagesForest client l ↔
      ∃ c ∈ l, e ∈ reachableImages client c) := by
  intro l
  induction l with
  | nil => simp [reachableImagesForest]
  | cons t ts ih =>
    simp only [reachableImagesForest, List.mem_append, ih, List.mem_cons]
    constructor
    · rintro (h | ⟨c, hc, hec⟩)
      · exact ⟨t, Or.inl rfl, h⟩
      · exact ⟨c, Or.inr hc, hec⟩
    · rintro ⟨c, hc | hc, hec⟩
      · subst hc
        exact Or.inl hec
      · exact Or.inr ⟨c, hc, hec⟩

/-- A tree of a forest is no larger than the forest. -/
theorem size_le_sizeForest_of_mem :
    ∀ (l : List DriveTree) (c : DriveTree), c ∈ l → c.size ≤ DriveTree.sizeForest l := by
  intro l
  induction l with
  | nil =>
    intro c hc
    cases hc
  | cons t ts ih =>
    intro c hc
    rw [DriveTree.sizeForest]
    rcases List.mem_cons.mp hc with h | h
    · rw [h]
      omega
    · have := ih c h
      omega

/-- Every reachable image of an unfolding tree is clean and
supported. -/
theorem mem_reachableImages_clean (client : DriveClient) :
    ∀ (k : Nat) (t : DriveTree), t.size ≤ k →
      ∀ e ∈ reachableImages client t, cleanSupportedImage e := by
  intro k
  induction k with
  | zero =>
    intro t hsz e _
    have := size_pos t
    omega
  | succ k ih =>
    intro t hsz e he
    cases t with
    | node i cs =>
      rw [reachableImages] at he
      rcases List.mem_append.mp he with h | h
      · exact collectChildrenStep_mem _ _ h
      · obtain ⟨c, hc, hec⟩ := (mem_reachForest_iff client e cs).mp h
        refine ih c ?_ e hec
        have h1 := size_le_sizeForest_of_mem cs c hc
        rw [DriveTree.size] at hsz
        omega

/-- C10: on a storage client whose folder graph reachable from the
root is finite and acyclic — witnessed by a finite unfolding tree the
client agrees with — `collect_images_recursive` terminates within
`size`-many loop iterations and returns exactly the reachable cleaned
supported images (one occurrence per reachable folder occurrence),
sorted by lowercase name. -/
theorem c10_collect_images_recursive_spec (client : DriveClient) (t : DriveTree) (fuel : Nat)
    (hagree : agreesWithTree client t = true) (hfuel : t.size ≤ fuel) :
    ∃ l, collectImagesRecursive client t.rootId fuel = some l ∧
      l.Perm (reachableImages client t) ∧
      l.Pairwise (fun a b => imageNameLe a b = true) ∧
      ∀ e ∈ l, cleanSupportedImage e := by
  have hforest : agreesWithForest client [t] = true := by
    simp [agreesWithForest, hagree]
  have hsizeF : DriveTree.sizeForest [t] ≤ fuel := by
    rw [DriveTree.sizeForest, DriveTree.sizeForest]
    omega
  obtain ⟨l0, hl0, hperm⟩ := collectImagesGo_forest_spec client fuel [t] [] hforest hsizeF
  have hperm' : l0.Perm (reachableImages client t) := by
    refine hperm.trans ?_
    simp [reachableImagesForest]
  have htrans : ∀ a b c : ImageEntry,
      imageNameLe a b → imageNameLe b c → imageNameLe a c := by
    intro a b c h1 h2
    simp only [imageNameLe, decide_eq_true_eq] at h1 h2 ⊢
    exact le_trans h1 h2
  have htot : ∀ a b : ImageEntry, imageNameLe a b || imageNameLe b a := by
    intro a b
    by_cases h : pyLower a.name ≤ pyLower b.name
    · simp [imageNameLe, h]
    · simp [imageNameLe, h, le_of_not_le h]
  refine ⟨l0.mergeSort imageNameLe, ?_, ?_, ?_, ?_⟩
  · rw [collectImagesRecursive]
    have hmap : [t.rootId] = [t].map DriveTree.rootId := rfl
    rw [hmap, hl0]
    rfl
  · exact (List.mergeSort_perm l0 _).trans hperm'
  · exact List.sorted_mergeSort htrans htot l0
  · intro e he
    have he0 : e ∈ l0 := List.mem_mergeSort.mp he
    have hre : e ∈ reachableImages client t := hperm'.mem_iff.mp he0
    exact mem_reachableImages_clean client t.size t (le_refl _) e hre


/-- C10 witness: the sample two-folder storage, traversed with fuel
equal to its two folder nodes, through the theorem. -/
theorem c10_collect_images_witness :
    ∃ l, collectImagesRecursive sampleDriveClient sampleDriveTree.rootId 2 = some l ∧
      l.Perm (reachableImages sampleDriveClient sampleDriveTree) ∧
      l.Pairwise (fun a b => imageNameLe a b = true) ∧
      ∀ e ∈ l, cleanSupportedImage e :=
  c10_collect_images_recursive_spec sampleDriveClient sampleDriveTree 2
    (by decide) (by decide)

end BlogAgent
